import Mathlib

/-!
Verification of the motion-detector pipeline (src/main.py).

The per-frame loop of `main` is embedded as explicit state passing over
`LoopState`; `write_frames_as_video` and `contains_various_black_pixels`
are embedded as pure functions. Python floats are modelled as exact
rationals (`ℚ`); numpy arrays as Lean lists.
-/

namespace MotionDetector

/-- A single-channel image buffer (the foreground mask handed to
`contains_various_black_pixels`): its numpy `shape` is `(width, height)`
and `pixels` lists the entries (row-major). -/
structure Mask where
  width : Nat
  height : Nat
  pixels : List ℚ

/-- Number of pixels equal to 0 in the mask: `np.sum(frame == 0)`
(src/main.py line 147). -/
def n_black_pixels (frame : Mask) : Nat :=
  frame.pixels.countP (fun p => decide (p = 0))

/-- Embedding of `contains_various_black_pixels` (src/main.py lines 130-148):
`threshold = ((width * height) / 100) * 10`, return
`n_black_pixels >= threshold`. Python float arithmetic is modelled
exactly over ℚ. -/
def contains_various_black_pixels (frame : Mask) : Bool :=
  let threshold : ℚ := ((frame.width * frame.height : ℚ) / 100) * 10
  decide (threshold ≤ (n_black_pixels frame : ℚ))

/-- The black-pixel ratio the spec speaks about:
`countPixelsEqual(mask, 0) / (width*height)`. -/
def blackPixelRatio (frame : Mask) : ℚ :=
  (n_black_pixels frame : ℚ) / (frame.width * frame.height : ℚ)

/-- Embedding of the Segmenter's re-thresholding step (src/main.py line 69):
`cv2.threshold(dist_transform, 0.02 * dist_transform.max(), 255, 0)` with
type 0 = THRESH_BINARY sets each output pixel to 255 where the input
strictly exceeds the threshold and to 0 otherwise. numpy's `.max()` is
modelled as a fold of `max` over the (non-negative) pixel list. -/
def rethreshold_distance (dist_transform : List ℚ) : List ℚ :=
  let threshold := 0.02 * dist_transform.foldl max 0
  dist_transform.map (fun p => if threshold < p then 255 else 0)

/-- Embedding of `write_frames_as_video` (src/main.py lines 100-125):
returns early (no VideoWriter created, nothing written) when fewer than 20
frames are buffered, otherwise writes every frame to the sink in list
order. `none` means VideoSink was never invoked; `some v` means VideoSink
was invoked and `v` is the ordered frame sequence it received. -/
def write_frames_as_video {F : Type} (list_of_frames : List F) :
    Option (List F) :=
  if list_of_frames.length < 20 then none
  else some (list_of_frames.foldl (fun written frame_to_write =>
    written ++ [frame_to_write]) [])

/-- Observable outcome of one call to `write_frames_as_video`: which
frames the sink persisted and which error, if any, was reported back to
the caller. -/
structure FlushOutcome (F : Type) where
  frames_persisted : List F
  error_reported : Option String
deriving DecidableEq

/-- Embedding of `write_frames_as_video` together with the fallibility of
its VideoWriter sink (src/main.py lines 100-127). `sink_ok = false`
models a failing sink (cannot open the output file, partial write, disk
full), in which case nothing is persisted. The source never checks
`out.isOpened()`, discards the status of each `out.write(...)` call, and
has no exception or return-value path for failures, so no error is ever
reported to the caller in either case. -/
def write_frames_as_video_outcome {F : Type} (sink_ok : Bool)
    (list_of_frames : List F) : FlushOutcome F :=
  if list_of_frames.length < 20 then ⟨[], none⟩
  else if sink_ok then
    ⟨list_of_frames.foldl (fun written frame_to_write =>
      written ++ [frame_to_write]) [], none⟩
  else ⟨[], none⟩

/-- The mutable state of `main`'s per-frame loop (src/main.py lines 40-42),
plus the two observable histories the claims speak about: the frames fed
to `background_subtractor.apply` and the videos handed to the sink. -/
structure LoopState (F : Type) where
  was_previous_frame_interesting : Option Bool
  list_of_interesting_frames : List F
  background_subtractor_history : List F
  videos_written : List (List F)
deriving DecidableEq

/-- Loop state at entry to the `while` loop (src/main.py lines 40-44):
the previous-frame flag is Python `None`, the buffer is empty. -/
def initState (F : Type) : LoopState F := ⟨none, [], [], []⟩

/-- One iteration of `main`'s loop body (src/main.py lines 46-87) for a
frame `capture` whose classifier decision is `is_current`:
`background_subtractor.apply(capture)` updates the model (line 54);
then, only when `was_previous_frame_interesting` is truthy (Python
truthiness: `None` and `False` are falsy), the current frame is either
appended (line 78) or the buffer is flushed via `write_frames_as_video`
and cleared (lines 82-84); finally the flag is set unconditionally
(line 87). -/
def stepFrame {F : Type} (s : LoopState F) (capture : F) (is_current : Bool) :
    LoopState F :=
  let bg := s.background_subtractor_history ++ [capture]
  if s.was_previous_frame_interesting = some true then
    if is_current then
      ⟨some is_current, s.list_of_interesting_frames ++ [capture], bg,
        s.videos_written⟩
    else
      match write_frames_as_video s.list_of_interesting_frames with
      | some v => ⟨some is_current, [], bg, s.videos_written ++ [v]⟩
      | none => ⟨some is_current, [], bg, s.videos_written⟩
  else
    ⟨some is_current, s.list_of_interesting_frames, bg, s.videos_written⟩

/-- Running the loop over a finite stream of frames paired with their
classifier decisions, starting from the initial state. -/
def run {F : Type} (xs : List (F × Bool)) : LoopState F :=
  xs.foldl (fun s p => stepFrame s p.1 p.2) (initState F)

/-- One event of the frame stream as `main`'s loop sees it: either a frame
(with its classifier decision and whether the quit key is observed at the
end of that iteration, src/main.py line 93), or end-of-stream
(`cap.read()` returned `None`, line 48). -/
inductive StreamEvent (F : Type) where
  | frame (capture : F) (is_current : Bool) (quit_key : Bool)
  | endOfStream

/-- The `while True` loop of `main` (src/main.py lines 45-94) over a
finite event stream: end-of-stream breaks before any processing; a frame
event is processed by `stepFrame`, after which the quit key, if observed,
breaks the loop. -/
def mainLoop {F : Type} (s : LoopState F) : List (StreamEvent F) → LoopState F
  | [] => s
  | StreamEvent.endOfStream :: _ => s
  | StreamEvent.frame capture is_current quit_key :: rest =>
    if quit_key then stepFrame s capture is_current
    else mainLoop (stepFrame s capture is_current) rest

/-- Invariant of the per-frame loop, relative to the list `ds` of
classifier decisions processed so far: the previous-frame flag mirrors
the last decision; the buffer is non-empty only when the last two
decisions were both motion; every video handed to the sink has at least
20 frames. -/
def BufInv {F : Type} (ds : List Bool) (s : LoopState F) : Prop :=
  s.was_previous_frame_interesting = ds.getLast? ∧
  (s.list_of_interesting_frames ≠ [] → ∃ pre, ds = pre ++ [true, true]) ∧
  (∀ v ∈ s.videos_written, 20 ≤ v.length)

/-- Concrete stream for the 22-motion-frame episode: frames 0..23 with
decisions `false`, then 22 times `true`, then `false`. -/
def c4_input : List (ℕ × Bool) :=
  (List.range 24).zip ([false] ++ List.replicate 22 true ++ [false])

/-- Concrete stream exercising the session-buffer invariant: 22 motion
decisions, a flush, then two more motion decisions leaving an active
buffer. -/
def c5_input : List (ℕ × Bool) :=
  (List.range 25).zip (List.replicate 22 true ++ [false, true, true])

/-- `foldl` over append-one-element is the identity accumulation:
the `for` loop of `write_frames_as_video` writes exactly the input list. -/
theorem foldl_append_one {F : Type} (l acc : List F) :
    l.foldl (fun written f => written ++ [f]) acc = acc ++ l := by
  induction l generalizing acc with
  | nil => simp
  | cons x xs ih => simp [List.foldl_cons, ih]

/-- Helper: a successful `write_frames_as_video` returns exactly its
input, which has at least 20 frames. -/
theorem write_frames_as_video_eq_some {F : Type} {l v : List F}
    (h : write_frames_as_video l = some v) : v = l ∧ 20 ≤ l.length := by
  by_cases hlen : l.length < 20
  · simp [write_frames_as_video, hlen] at h
  · rw [write_frames_as_video, if_neg hlen, foldl_append_one,
      List.nil_append] at h
    exact ⟨(Option.some_injective _ h).symm, Nat.not_lt.mp hlen⟩

/-- C3: on any mask with at least one pixel position, the classifier
returns `true` exactly when the black-pixel ratio is at least 0.10;
in particular the boundary ratio 0.10 itself yields `true`. -/
theorem contains_various_black_pixels_iff_ratio (frame : Mask)
    (h : 0 < frame.width * frame.height) :
    contains_various_black_pixels frame = true ↔
      (1 : ℚ) / 10 ≤ blackPixelRatio frame := by
  have hwh : (0 : ℚ) < (frame.width * frame.height : ℚ) := by
    exact_mod_cast h
  unfold contains_various_black_pixels blackPixelRatio
  rw [decide_eq_true_iff, div_le_div_iff₀ (by norm_num) hwh]
  constructor <;> intro hle <;> linarith

/-- Witness for C3 at the exact boundary: a 2×5 mask with exactly one
black pixel has ratio 1/10 and is classified as motion. -/
theorem contains_various_black_pixels_iff_ratio_witness :
    contains_various_black_pixels
        ⟨2, 5, [0, 1, 1, 1, 1, 1, 1, 1, 1, 1]⟩ = true ↔
      (1 : ℚ) / 10 ≤ blackPixelRatio ⟨2, 5, [0, 1, 1, 1, 1, 1, 1, 1, 1, 1]⟩ :=
  contains_various_black_pixels_iff_ratio
    ⟨2, 5, [0, 1, 1, 1, 1, 1, 1, 1, 1, 1]⟩ (by decide)

/-- C2: `write_frames_as_video` invokes VideoSink iff at least 20 frames
are buffered; a shorter buffer is discarded without invoking the sink,
and a buffer of length ≥ 20 is written in full, in original order. -/
theorem write_frames_as_video_spec {F : Type} (l : List F) :
    (l.length < 20 → write_frames_as_video l = none) ∧
    (20 ≤ l.length → write_frames_as_video l = some l) := by
  constructor
  · intro h
    simp [write_frames_as_video, h]
  · intro h
    simp [write_frames_as_video, Nat.not_lt.mpr h, foldl_append_one]

/-- Witness for C2: a 19-frame buffer is discarded without invoking the
sink; a 20-frame buffer is written in full, in order. -/
theorem write_frames_as_video_spec_witness :
    write_frames_as_video (List.range 19) = none ∧
      write_frames_as_video (List.range 20) = some (List.range 20) :=
  ⟨(write_frames_as_video_spec (List.range 19)).1 (by decide),
   (write_frames_as_video_spec (List.range 20)).2 (by decide)⟩

/-- C1: while the previous-frame flag is not `True` (covering the initial
`None`), one loop iteration never mutates the session buffer and never
hands anything to the sink; and the current frame is appended to the
buffer exactly when both the previous flag and the current decision are
`True` — so the first frame of a motion episode is never captured. -/
theorem stepFrame_no_capture_unless_both {F : Type} (s : LoopState F)
    (capture : F) (is_current : Bool) :
    (s.was_previous_frame_interesting ≠ some true →
      (stepFrame s capture is_current).list_of_interesting_frames =
          s.list_of_interesting_frames ∧
        (stepFrame s capture is_current).videos_written = s.videos_written) ∧
    ((stepFrame s capture is_current).list_of_interesting_frames =
        s.list_of_interesting_frames ++ [capture] ↔
      s.was_previous_frame_interesting = some true ∧ is_current = true) := by
  constructor
  · intro h
    simp [stepFrame, h]
  · by_cases hp : s.was_previous_frame_interesting = some true
    · cases is_current with
      | true => simp [stepFrame, hp]
      | false =>
        cases hw : write_frames_as_video s.list_of_interesting_frames with
        | some v => simp [stepFrame, hp, hw]
        | none => simp [stepFrame, hp, hw]
    · simp [stepFrame, hp]

/-- Witness for C1 at the initial state: a motion frame arriving while the
flag is still `None` is not buffered. -/
theorem stepFrame_no_capture_unless_both_witness :
    (stepFrame (initState ℕ) 5 true).list_of_interesting_frames = [] ∧
      (stepFrame (initState ℕ) 5 true).videos_written = [] :=
  (stepFrame_no_capture_unless_both (initState ℕ) 5 true).1 (by decide)

/-- C9: every loop iteration feeds the current frame to the background
subtractor, appending it to the model's history, whatever the session
state and whatever the classifier decided — the update is independent of
the session-buffer decision. -/
theorem stepFrame_background_always_updates {F : Type} (s : LoopState F)
    (capture : F) (is_current : Bool) :
    (stepFrame s capture is_current).background_subtractor_history =
      s.background_subtractor_history ++ [capture] := by
  unfold stepFrame
  by_cases hp : s.was_previous_frame_interesting = some true <;>
    cases is_current <;>
      simp [hp] <;>
        cases hw : write_frames_as_video s.list_of_interesting_frames <;>
          simp [hw]

/-- C10: across one loop iteration the session buffer either stays
unchanged, gains exactly one frame appended at the end, or is cleared to
empty; no other mutation is possible. -/
theorem stepFrame_buffer_trichotomy {F : Type} (s : LoopState F)
    (capture : F) (is_current : Bool) :
    (stepFrame s capture is_current).list_of_interesting_frames =
        s.list_of_interesting_frames ∨
      (stepFrame s capture is_current).list_of_interesting_frames =
        s.list_of_interesting_frames ++ [capture] ∨
      (stepFrame s capture is_current).list_of_interesting_frames = [] := by
  unfold stepFrame
  by_cases hp : s.was_previous_frame_interesting = some true <;>
    cases is_current <;>
      simp [hp] <;>
        cases hw : write_frames_as_video s.list_of_interesting_frames <;>
          simp [hw]

/-- Helper: folding `max` from 0 over an all-zero list yields 0. -/
theorem foldl_max_all_zero (l : List ℚ) (h : ∀ p ∈ l, p = 0) :
    l.foldl max 0 = 0 := by
  induction l with
  | nil => rfl
  | cons x xs ih =>
    have hx : x = 0 := h x (List.mem_cons_self x xs)
    rw [List.foldl_cons, hx, max_self]
    exact ih (fun p hp => h p (List.mem_cons_of_mem x hp))

/-- C7: on a degenerate all-zero distance transform (maximum = 0, as for
an all-black input frame) the re-thresholding step is well defined — the
embedding is a total function, there is no division to fault — and every
output pixel is 0, i.e. the cleaned mask is all-background. -/
theorem rethreshold_distance_all_zero (dist_transform : List ℚ)
    (h : ∀ p ∈ dist_transform, p = 0) :
    rethreshold_distance dist_transform =
      List.map (fun _ => (0 : ℚ)) dist_transform := by
  unfold rethreshold_distance
  rw [foldl_max_all_zero dist_transform h]
  refine List.map_congr_left (fun p hp => ?_)
  rw [h p hp]
  norm_num

/-- Witness for C7: the all-zero 3-pixel transform maps to the all-zero
mask. -/
theorem rethreshold_distance_all_zero_witness :
    rethreshold_distance [0, 0, 0] = List.map (fun _ => (0 : ℚ)) [0, 0, 0] :=
  rethreshold_distance_all_zero [0, 0, 0] (by decide)

/-- C6 counterexample: with a failing sink (cannot open / disk full) and a
full 20-frame session, the flush loses every frame yet reports no error
to its caller — the failure is silently swallowed, contradicting the
claim that it is surfaced. -/
theorem write_frames_as_video_outcome_swallows_failure :
    (write_frames_as_video_outcome false (List.range 20)).frames_persisted
        = [] ∧
      (write_frames_as_video_outcome false (List.range 20)).error_reported
        = none := by
  constructor <;> rfl

/-- C6 amended: `write_frames_as_video` never reports an error to its
caller, whether or not the sink succeeds — the source ignores the
VideoWriter's status and has no failure path. -/
theorem write_frames_as_video_outcome_never_reports {F : Type}
    (sink_ok : Bool) (list_of_frames : List F) :
    (write_frames_as_video_outcome sink_ok list_of_frames).error_reported
      = none := by
  unfold write_frames_as_video_outcome
  by_cases hlen : list_of_frames.length < 20 <;> cases sink_ok <;>
    simp [hlen]

/-- C4: over frames 0..23 with decisions `false`, 22 × `true`, `false`,
the sink is invoked exactly once and receives exactly the 21 frames
2..22 in acquisition order (the run length 22 minus the skipped
transition frame 1); the buffer is empty afterwards. -/
theorem run_c4_episode :
    (run c4_input).videos_written = [List.range' 2 21] ∧
      (List.range' 2 21).length = 21 ∧
      (run c4_input).list_of_interesting_frames = [] := by
  decide

/-- Helper: one loop iteration preserves `BufInv`, extending the decision
list by the current decision. -/
theorem bufInv_step {F : Type} {ds : List Bool} {s : LoopState F}
    (inv : BufInv ds s) (capture : F) (c : Bool) :
    BufInv (ds ++ [c]) (stepFrame s capture c) := by
  obtain ⟨hflag, hbuf, hvids⟩ := inv
  by_cases hp : s.was_previous_frame_interesting = some true
  · cases c with
    | true =>
      refine ⟨by simp [stepFrame, hp], ?_, ?_⟩
      · intro _
        have hds : ds.getLast? = some true := hflag.symm.trans hp
        have hdrop : ds.dropLast ++ [true] = ds :=
          List.dropLast_append_getLast? true (Option.mem_def.mpr hds)
        refine ⟨ds.dropLast, ?_⟩
        have h2 : ds ++ [true] = ds.dropLast ++ [true] ++ [true] := by
          rw [hdrop]
        rw [h2, List.append_assoc]
        rfl
      · simpa [stepFrame, hp] using hvids
    | false =>
      cases hw : write_frames_as_video s.list_of_interesting_frames with
      | some v =>
        refine ⟨by simp [stepFrame, hp, hw], by simp [stepFrame, hp, hw], ?_⟩
        intro u hu
        rw [stepFrame] at hu
        simp [hp, hw] at hu
        rcases hu with hu | hu
        · exact hvids u hu
        · obtain ⟨hv, hlen⟩ := write_frames_as_video_eq_some hw
          rw [hu, hv]
          exact hlen
      | none =>
        exact ⟨by simp [stepFrame, hp, hw], by simp [stepFrame, hp, hw],
          by simpa [stepFrame, hp, hw] using hvids⟩
  · refine ⟨by simp [stepFrame, hp], ?_, by simpa [stepFrame, hp] using hvids⟩
    intro hne
    have hne' : s.list_of_interesting_frames ≠ [] := by
      simpa [stepFrame, hp] using hne
    obtain ⟨pre, hpre⟩ := hbuf hne'
    exact absurd (hflag.trans (by rw [hpre]; simp)) hp

/-- Helper: `BufInv` is preserved along any run of the loop. -/
theorem bufInv_foldl {F : Type} (xs : List (F × Bool)) :
    ∀ (ds : List Bool) (s : LoopState F), BufInv ds s →
      BufInv (ds ++ xs.map Prod.snd)
        (xs.foldl (fun s p => stepFrame s p.1 p.2) s) := by
  induction xs with
  | nil => intro ds s inv; simpa using inv
  | cons x xs ih =>
    intro ds s inv
    have := ih (ds ++ [x.2]) (stepFrame s x.1 x.2) (bufInv_step inv x.1 x.2)
    simpa [List.append_assoc] using this

/-- C5: in every state reachable by the loop from its initial state, the
session buffer is non-empty only if the two most recent classifier
decisions were both motion, and every video handed to the sink has at
least 20 frames. -/
theorem run_sessionBuffer_invariant {F : Type} (xs : List (F × Bool)) :
    ((run xs).list_of_interesting_frames ≠ [] →
      ∃ pre, xs.map Prod.snd = pre ++ [true, true]) ∧
    (∀ v ∈ (run xs).videos_written, 20 ≤ v.length) := by
  have hinit : BufInv ([] : List Bool) (initState F) :=
    ⟨rfl, fun h => absurd rfl h, fun v hv => absurd hv (List.not_mem_nil v)⟩
  have := bufInv_foldl xs [] (initState F) hinit
  rw [List.nil_append] at this
  exact ⟨this.2.1, this.2.2⟩

/-- Witness for C5 on the concrete stream `c5_input`: its final buffer is
non-empty, so its decisions end in two `true`s, and the one flushed video
(frames 1..21) has at least 20 frames. -/
theorem run_sessionBuffer_invariant_witness :
    (∃ pre, c5_input.map Prod.snd = pre ++ [true, true]) ∧
      20 ≤ (List.range' 1 21).length :=
  ⟨(run_sessionBuffer_invariant c5_input).1 (by decide),
   (run_sessionBuffer_invariant c5_input).2 (List.range' 1 21) (by decide)⟩

/-- C8: the loop terminates without flushing. On end-of-stream the state
is returned untouched — in particular no video is handed to the sink, so
frames buffered in an active session are lost; on the quit key the loop
stops right after the current iteration, again with no extra flush. -/
theorem mainLoop_no_flush_on_termination {F : Type} (s : LoopState F)
    (rest : List (StreamEvent F)) (capture : F) (is_current : Bool) :
    mainLoop s (StreamEvent.endOfStream :: rest) = s ∧
      (mainLoop s (StreamEvent.endOfStream :: rest)).videos_written =
        s.videos_written ∧
      mainLoop s (StreamEvent.frame capture is_current true :: rest) =
        stepFrame s capture is_current := by
  refine ⟨rfl, rfl, ?_⟩
  simp [mainLoop]

end MotionDetector
